import Mathlib

/-!
Verification of the product-inventory dashboard's product data management
layer (the `useProducts` hook) and metrics derivation (`useDashboardMetrics`),
shallowly embedded from the JavaScript source.

Timestamps are modelled as milliseconds (`Int`); a calendar date is a day
number `d`, whose start of day is `d * 86400000` and whose end of day is
`d * 86400000 + 86399999` (dayjs `endOf("day")`, 23:59:59.999).
Prices are exact decimals, modelled as `ℚ` (the source aggregates them with
decimal.js, which computes exactly on decimal inputs).
-/

set_option autoImplicit false

namespace Dashboard

/-- `isPrefOf a b` : the character list `a` is a prefix of `b`. -/
def isPrefOf : List Char → List Char → Bool
  | [], _ => true
  | _ :: _, [] => false
  | a :: as, b :: bs => a == b && isPrefOf as bs

/-- `containsSub sub l` : `sub` occurs contiguously inside `l`. -/
def containsSub (sub : List Char) : List Char → Bool
  | [] => sub.isEmpty
  | c :: t => isPrefOf sub (c :: t) || containsSub sub t

/-- JavaScript `s.includes(sub)` : substring containment. -/
def jsIncludes (s sub : String) : Bool :=
  containsSub sub.data s.data

/-- Milliseconds per calendar day. -/
def msPerDay : Int := 86400000

/-- Timestamp of the start of day `d` (dayjs parse of a `YYYY-MM-DD` string). -/
def dayStart (d : Int) : Int := d * msPerDay

/-- Timestamp of the end of day `d` (dayjs `.endOf("day")`, 23:59:59.999). -/
def dayEnd (d : Int) : Int := d * msPerDay + (msPerDay - 1)

/-- A product category, `{ id, name }`. -/
structure Category where
  id : Int
  name : String
deriving DecidableEq, Repr

/-- A product record as returned by the catalog API.  `price` is `none` when
the field is absent or null; `creationAt` is the parsed timestamp. -/
structure Product where
  id : Int
  title : String
  price : Option ℚ
  creationAt : Int
  category : Option Category
deriving DecidableEq, Repr

/-- The `dateRange` filter: optional start and end dates (day numbers).
The source field `end` is a Lean keyword, hence `end_`. -/
structure DateRange where
  start : Option Int
  end_ : Option Int
deriving DecidableEq, Repr

/-- The state owned by one `useProducts` instance: the authoritative product
set, the loading/error flags and the filter/pagination state. -/
structure ManagerState where
  allProducts : List Product
  loading : Bool
  error : Option String
  page : Nat
  searchTerm : String
  dateRange : DateRange
deriving DecidableEq, Repr

/-- `setSearchTerm` as returned by the hook: the raw `useState` setter.  It
performs no network call and touches no other field. -/
def setSearchTerm (s : ManagerState) (term : String) : ManagerState :=
  { s with searchTerm := term }

/-- `setDateRange` as returned by the hook: the raw `useState` setter.  It
performs no network call and touches no other field. -/
def setDateRange (s : ManagerState) (r : DateRange) : ManagerState :=
  { s with dateRange := r }

/-- The error message set by `fetchProducts` on failure. -/
def loadErrorMessage : String :=
  "Error al cargar los productos. Por favor, intente nuevamente."

/-- One observable step of a `fetchProducts` (`load()`) call:
`start` is the synchronous prologue (`setLoading(true); setError(null)`),
`resolve data` is a successful response (`setAllProducts(data)` then the
`finally` `setLoading(false)`), `reject` is the `catch` branch
(`setError(...)` then `setLoading(false)`).  Two overlapping calls
interleave as a list of these events. -/
inductive LoadEvent where
  | start : LoadEvent
  | resolve : List Product → LoadEvent
  | reject : LoadEvent
deriving DecidableEq, Repr

/-- Apply one load event to the state, exactly as `fetchProducts` does:
each resolved response is applied unconditionally (the source has no
request sequence number or staleness guard). -/
def applyLoadEvent (s : ManagerState) : LoadEvent → ManagerState
  | .start => { s with loading := true, error := none }
  | .resolve data => { s with allProducts := data, loading := false }
  | .reject => { s with error := some loadErrorMessage, loading := false }

/-- Run a sequence of load events. -/
def runLoad (s : ManagerState) (events : List LoadEvent) : ManagerState :=
  events.foldl applyLoadEvent s

/-- The search predicate of `filteredProducts`:
`product.title.toLowerCase().includes(searchTerm.toLowerCase())`. -/
def matchesSearch (term : String) (p : Product) : Bool :=
  jsIncludes p.title.toLower term.toLower

/-- The date predicate of `filteredProducts`: starts `true`; set to `false`
when a start date is set and the product date `isBefore` it, or when an end
date is set and the product date `isAfter` its end of day. -/
def matchesDateRange (r : DateRange) (t : Int) : Bool :=
  if r.start.isSome || r.end_.isSome then
    (match r.start with
      | some s => !decide (t < dayStart s)
      | none => true)
    &&
    (match r.end_ with
      | some e => !decide (dayEnd e < t)
      | none => true)
  else
    true

/-- The filter callback of `filteredProducts`: `matchesSearch && matchesDate`. -/
def productMatches (term : String) (r : DateRange) (p : Product) : Bool :=
  matchesSearch term p && matchesDateRange r p.creationAt

/-- `filteredProducts`: the authoritative set restricted by the search and
date predicates, in order. -/
def filteredProducts (term : String) (r : DateRange) (ps : List Product) :
    List Product :=
  ps.filter (productMatches term r)

/-- JavaScript `Array.prototype.slice(a, b)` for `0 ≤ a ≤ b`. -/
def jsSlice {α : Type} (l : List α) (a b : Nat) : List α :=
  (l.drop a).take (b - a)

/-- `paginatedProducts`: when `paginated`, the slice
`filtered.slice(page * pageSize, (page + 1) * pageSize)`; otherwise the
whole filtered list. -/
def paginatedProducts (paginated : Bool) (page pageSize : Nat)
    (filtered : List Product) : List Product :=
  if paginated then jsSlice filtered (page * pageSize) ((page + 1) * pageSize)
  else filtered

/-- `handleDeleteProduct id`: the catalog delete call either succeeds
(`Except.ok`) or throws (`Except.error`).  On success the product is filtered
out of the authoritative set and `true` is returned; on failure the state is
left untouched and `false` is returned (the function never throws). -/
def handleDeleteProduct (apiResult : Except Unit Unit) (id : Int)
    (s : ManagerState) : ManagerState × Bool :=
  match apiResult with
  | .ok _ =>
    ({ s with allProducts := s.allProducts.filter (fun p => p.id ≠ id) }, true)
  | .error _ => (s, false)

/-- `product.category?.name || "Sin categoría"`: the group label of a
product; the fixed fallback label when the category is absent or its name
is the empty string (both falsy). -/
def categoryName (p : Product) : String :=
  match p.category with
  | none => "Sin categoría"
  | some c => if c.name = "" then "Sin categoría" else c.name

/-- `acc.plus(new Decimal(product.price || 0))` folded over the collection:
the exact decimal inventory total. -/
def inventoryTotal (ps : List Product) : ℚ :=
  ps.foldl (fun acc p => acc + p.price.getD 0) 0

/-- Two-digit rendering of a value below 100 (the fraction part). -/
def pad2 (m : Nat) : String :=
  if m < 10 then "0" ++ toString m else toString m

/-- Rendering of a nonnegative amount of cents as a decimal string with two
fraction digits. -/
def natFixed2 (n : Nat) : String :=
  toString (n / 100) ++ "." ++ pad2 (n % 100)

/-- decimal.js `.toFixed(2)` with the default `ROUND_HALF_UP` (half away
from zero), rendered with exactly two fraction digits. -/
def toFixed2 (q : ℚ) : String :=
  if 0 ≤ q then natFixed2 ⌊q * 100 + 1 / 2⌋.natAbs
  else "-" ++ natFixed2 ⌊-q * 100 + 1 / 2⌋.natAbs

/-- One step of the `categoryCount` accumulator
`acc[categoryName] = (acc[categoryName] || 0) + 1`, on an association list
kept in property-creation order.  The enumeration order seen by
`Object.entries` is applied separately by `jsEntries`. -/
def bumpCategory (acc : List (String × Nat)) (name : String) :
    List (String × Nat) :=
  if acc.any (fun e => e.1 == name) then
    acc.map (fun e => if e.1 == name then (e.1, e.2 + 1) else e)
  else
    acc ++ [(name, 1)]

/-- `categoryCount`: the per-category product-count property bag, keyed in
property-creation (first-occurrence) order. -/
def categoryCount (ps : List Product) : List (String × Nat) :=
  ps.foldl (fun acc p => bumpCategory acc (categoryName p)) []

/-- The numeric value of a string of decimal digits (JavaScript's canonical
numeric-string reading, junk on other strings). -/
def strNatVal (s : String) : Nat :=
  s.data.foldl (fun n c => n * 10 + (c.toNat - 48)) 0

/-- Whether a property key is an ECMAScript array index: the canonical
decimal string of an integer below 2^32 - 1 (`"5"` is, `"05"` and
`"Apple"` are not). -/
def isArrayIndex (s : String) : Bool :=
  toString (strNatVal s) == s && decide (strNatVal s < 4294967295)

/-- Insert an entry into a list sorted by ascending numeric key value. -/
def insertByKey (e : String × Nat) : List (String × Nat) → List (String × Nat)
  | [] => [e]
  | f :: t =>
    if strNatVal e.1 ≤ strNatVal f.1 then e :: f :: t
    else f :: insertByKey e t

/-- Sort entries by ascending numeric key value (array-index keys are
pairwise distinct here, so stability is moot). -/
def sortByIndex : List (String × Nat) → List (String × Nat)
  | [] => []
  | e :: t => insertByKey e (sortByIndex t)

/-- `Object.entries` enumeration order (ECMAScript `[[OwnPropertyKeys]]`):
array-index-like keys first, in ascending numeric order, then the remaining
string keys in property-creation order. -/
def jsEntries (l : List (String × Nat)) : List (String × Nat) :=
  sortByIndex (l.filter (fun e => isArrayIndex e.1))
    ++ l.filter (fun e => !isArrayIndex e.1)

/-- The `reduce` callback selecting the top category: keeps the current
maximum, replacing it only on a strictly greater count. -/
def pickGreater (m e : String × Nat) : String × Nat :=
  if e.2 > m.2 then e else m

/-- `Object.entries(categoryCount).reduce(...)`: folds `pickGreater` over
the entries, starting from `{name:"N/A", count:0}`. -/
def topCategoryOf (entries : List (String × Nat)) : String × Nat :=
  entries.foldl pickGreater ("N/A", 0)

/-- The metrics snapshot fields derived by `useDashboardMetrics` that belong
to the data layer (counts, exact-decimal total, category aggregation). -/
structure MetricsSnapshot where
  totalProducts : Nat
  totalInventoryValue : String
  topCategory : String × Nat
  categoryDistribution : List (String × Nat)
deriving DecidableEq, Repr

/-- `useDashboardMetrics` body: the zero-state snapshot on an empty (or
missing) collection, otherwise the derived aggregates. -/
def computeMetrics (ps : List Product) : MetricsSnapshot :=
  if ps.isEmpty then
    { totalProducts := 0
      totalInventoryValue := "0.00"
      topCategory := ("N/A", 0)
      categoryDistribution := [] }
  else
    { totalProducts := ps.length
      totalInventoryValue := toFixed2 (inventoryTotal ps)
      topCategory := topCategoryOf (jsEntries (categoryCount ps))
      categoryDistribution := jsEntries (categoryCount ps) }

/-! ### Sample data used by concrete witnesses and counterexamples -/

/-- A minimal product record. -/
def productA : Product :=
  { id := 1, title := "Red Shirt", price := none, creationAt := 0,
    category := none }

/-- A second minimal product record. -/
def productB : Product :=
  { id := 2, title := "Blue Hat", price := none, creationAt := 0,
    category := none }

/-- A manager state holding `ps`, not loading, no error, on page 0 with no
filters. -/
def initState (ps : List Product) : ManagerState :=
  { allProducts := ps, loading := false, error := none, page := 0,
    searchTerm := "", dateRange := ⟨none, none⟩ }

/-! ### C1 -/

/-- C1 (counterexample): from a state on page 1, neither `setSearchTerm` nor
`setDateRange` resets the current page to 0 — the hook returns the raw state
setters and no page reset is wired anywhere. -/
theorem setSearchTerm_not_reset_page_cex :
    ¬ ((setSearchTerm { initState [] with page := 1 } "x").page = 0 ∨
       (setDateRange { initState [] with page := 1 } ⟨some 0, none⟩).page = 0) := by
  decide

/-- C1 (amended): `setSearchTerm` and `setDateRange` update exactly the
filter state, synchronously and without a network call (they are pure state
updates: the authoritative set, loading flag and error are untouched), and
they leave the current page unchanged rather than resetting it to 0. -/
theorem filter_setters_update_only_filter_state (s : ManagerState)
    (term : String) (r : DateRange) :
    setSearchTerm s term = { s with searchTerm := term } ∧
    (setSearchTerm s term).page = s.page ∧
    (setSearchTerm s term).allProducts = s.allProducts ∧
    (setSearchTerm s term).loading = s.loading ∧
    (setSearchTerm s term).error = s.error ∧
    (setSearchTerm s term).dateRange = s.dateRange ∧
    setDateRange s r = { s with dateRange := r } ∧
    (setDateRange s r).page = s.page ∧
    (setDateRange s r).allProducts = s.allProducts ∧
    (setDateRange s r).loading = s.loading ∧
    (setDateRange s r).error = s.error ∧
    (setDateRange s r).searchTerm = s.searchTerm :=
  ⟨rfl, rfl, rfl, rfl, rfl, rfl, rfl, rfl, rfl, rfl, rfl, rfl⟩

/-! ### C2 -/

/-- C2: `fetchProducts` has no staleness guard, so when two `load()` calls
overlap and the first call's response (`[productA]`) resolves after the
second call's response (`[productB]`), the stale first response overwrites
the newer data: the authoritative set ends as `[productA]`, not the last
caller's `[productB]`. -/
theorem fetchProducts_stale_response_overwrites :
    (runLoad (initState [])
        [.start, .start, .resolve [productB], .resolve [productA]]).allProducts
      = [productA] ∧
    [productA] ≠ [productB] := by
  exact ⟨rfl, by decide⟩

/-! ### C6 -/

/-- C6: a failed `load()` (the `catch` branch) leaves the previous
authoritative set exactly as it was, exposes the user-facing error message in
state rather than throwing, and clears the loading flag. -/
theorem fetchProducts_failure_preserves_set (s : ManagerState) :
    (runLoad s [.start, .reject]).allProducts = s.allProducts ∧
    (runLoad s [.start, .reject]).error = some loadErrorMessage ∧
    (runLoad s [.start, .reject]).loading = false :=
  ⟨rfl, rfl, rfl⟩

/-! ### C7 -/

/-- C7: when the catalog delete succeeds, `handleDeleteProduct` returns
`true` and removes the record with the given id from the authoritative set;
when no record has that id this is a no-op (state and length unchanged);
when the delete fails it returns `false` as a value (never an exception) and
leaves the state exactly unchanged. -/
theorem handleDeleteProduct_spec (s : ManagerState) (id : Int) :
    (handleDeleteProduct (.ok ()) id s).2 = true ∧
    (handleDeleteProduct (.ok ()) id s).1.allProducts
      = s.allProducts.filter (fun p => p.id ≠ id) ∧
    ((∀ p ∈ s.allProducts, p.id ≠ id) →
      (handleDeleteProduct (.ok ()) id s).1 = s ∧
      (handleDeleteProduct (.ok ()) id s).1.allProducts.length
        = s.allProducts.length) ∧
    handleDeleteProduct (.error ()) id s = (s, false) := by
  refine ⟨rfl, rfl, fun h => ?_, rfl⟩
  have hfil : s.allProducts.filter (fun p => p.id ≠ id) = s.allProducts :=
    List.filter_eq_self.mpr (fun p hp => by simpa using h p hp)
  constructor
  · show ({ s with allProducts := s.allProducts.filter (fun p => p.id ≠ id) }
        : ManagerState) = s
    rw [hfil]
  · show (s.allProducts.filter (fun p => p.id ≠ id)).length
      = s.allProducts.length
    rw [hfil]

/-- C7 witness: deleting id 2 from a set holding only id 1 is a no-op that
returns success and keeps the length. -/
theorem handleDeleteProduct_spec_witness :
    (∀ p ∈ (initState [productA]).allProducts, p.id ≠ (2 : Int)) ∧
    ((handleDeleteProduct (.ok ()) 2 (initState [productA])).1
        = initState [productA] ∧
     (handleDeleteProduct (.ok ()) 2 (initState [productA])).1.allProducts.length
        = (initState [productA]).allProducts.length) ∧
    (handleDeleteProduct (.ok ()) 2 (initState [productA])).2 = true ∧
    handleDeleteProduct (.error ()) 2 (initState [productA])
      = (initState [productA], false) :=
  ⟨by decide,
   (handleDeleteProduct_spec (initState [productA]) 2).2.2.1 (by decide),
   (handleDeleteProduct_spec (initState [productA]) 2).1,
   (handleDeleteProduct_spec (initState [productA]) 2).2.2.2⟩

/-! ### C5 -/

/-- C5: with pagination on, `paginatedProducts` is exactly the slice
`R[page * pageSize : (page + 1) * pageSize]` of the filtered result, and it
is the empty sequence (no error, no wraparound) whenever
`page * pageSize ≥ length R`. -/
theorem paginatedProducts_slice_spec (page pageSize : Nat)
    (R : List Product) (h : 0 < pageSize) :
    paginatedProducts true page pageSize R
      = (R.drop (page * pageSize)).take pageSize ∧
    (R.length ≤ page * pageSize → paginatedProducts true page pageSize R = []) := by
  constructor
  · show jsSlice R (page * pageSize) ((page + 1) * pageSize)
      = (R.drop (page * pageSize)).take pageSize
    unfold jsSlice
    rw [Nat.succ_mul, Nat.add_sub_cancel_left]
  · intro hlen
    show jsSlice R (page * pageSize) ((page + 1) * pageSize) = []
    unfold jsSlice
    rw [List.drop_eq_nil_of_le hlen, List.take_nil]

/-- C5 witness: a 2-element filtered result with page 3 and page size 10
yields the empty slice. -/
theorem paginatedProducts_slice_spec_witness :
    (0 : Nat) < 10 ∧
    paginatedProducts true 3 10 [productA, productB]
      = ([productA, productB].drop 30).take 10 ∧
    ([productA, productB] : List Product).length ≤ 30 ∧
    paginatedProducts true 3 10 [productA, productB] = [] :=
  ⟨by decide,
   (paginatedProducts_slice_spec 3 10 [productA, productB] (by decide)).1,
   by decide,
   (paginatedProducts_slice_spec 3 10 [productA, productB] (by decide)).2
     (by decide)⟩

/-! ### C3 -/

/-- Spec-side filter predicate, following the spec's words: the title
contains the search term case-insensitively, and, when set, `creationAt` is
not before the start of day of `dateRange.start` and not after the end of
day of `dateRange.end`. -/
def specFilterKeep (term : String) (r : DateRange) (p : Product) : Bool :=
  jsIncludes p.title.toLower term.toLower &&
  (match r.start with
    | some s => decide (dayStart s ≤ p.creationAt)
    | none => true) &&
  (match r.end_ with
    | some e => decide (p.creationAt ≤ dayEnd e)
    | none => true)

/-- The source's filter callback agrees pointwise with the spec's predicate. -/
lemma productMatches_eq_specFilterKeep (term : String) (r : DateRange)
    (p : Product) :
    productMatches term r p = specFilterKeep term r p := by
  unfold productMatches specFilterKeep matchesSearch matchesDateRange
  rcases r with ⟨rs, re⟩
  rcases rs with _ | s <;> rcases re with _ | e <;>
    simp [decide_eq_true_eq, Bool.and_assoc, ← decide_not, Int.not_lt]

/-- C3: `filteredProducts` returns exactly the members of the collection
satisfying the spec's predicate (case-insensitive title containment, and the
start-of-day / end-of-day bounds when set), as a sublist of the collection:
relative order is preserved and nothing is reordered, inserted or
duplicated. -/
theorem filteredProducts_spec (term : String) (r : DateRange)
    (ps : List Product) :
    filteredProducts term r ps = ps.filter (specFilterKeep term r) ∧
    (filteredProducts term r ps).Sublist ps := by
  constructor
  · exact List.filter_congr
      (fun p _ => productMatches_eq_specFilterKeep term r p)
  · exact List.filter_sublist ps

/-! ### C4 -/

/-- C4: when both bounds are set and the start date is strictly later than
the end date, `filteredProducts` is the empty sequence (and, being a total
function, raises no error), whatever the search term. -/
theorem filteredProducts_inverted_range_empty (term : String) (r : DateRange)
    (ps : List Product) (s e : Int) (hs : r.start = some s)
    (he : r.end_ = some e) (hlt : e < s) :
    filteredProducts term r ps = [] := by
  unfold filteredProducts
  rw [List.filter_eq_nil_iff]
  intro p _
  unfold productMatches matchesDateRange
  rw [hs, he]
  simp only [Option.isSome_some, Bool.or_self, if_true, Bool.and_eq_true,
    Bool.not_eq_true', decide_eq_false_iff_not, Int.not_lt, not_and,
    Bool.not_eq_true]
  intro _
  unfold dayStart dayEnd msPerDay
  intro h1 h2
  omega

/-- C4 witness: with start day 2 and end day 1 the filter yields `[]`. -/
theorem filteredProducts_inverted_range_empty_witness :
    (DateRange.mk (some 2) (some 1)).start = some 2 ∧
    (DateRange.mk (some 2) (some 1)).end_ = some 1 ∧
    (1 : Int) < 2 ∧
    filteredProducts "" ⟨some 2, some 1⟩ [productA, productB] = [] :=
  ⟨rfl, rfl, by decide,
   filteredProducts_inverted_range_empty "" ⟨some 2, some 1⟩
     [productA, productB] 2 1 rfl rfl (by decide)⟩

/-! ### C8 -/

/-- A product priced 10.005, the spec's decimal-drift test value. -/
def productP1 : Product :=
  { id := 1, title := "a", price := some 10.005, creationAt := 0,
    category := none }

/-- A second product priced 10.005. -/
def productP2 : Product :=
  { id := 2, title := "b", price := some 10.005, creationAt := 0,
    category := none }

/-- The fraction part rendered by `pad2` is always two digit characters. -/
lemma pad2_spec : ∀ m : Nat, m < 100 →
    (pad2 m).length = 2 ∧ (pad2 m).data.all Char.isDigit = true := by
  decide

/-- `computeMetrics` renders `toFixed2` of the exact decimal sum, on empty
collections included (`"0.00"` is `toFixed2 0`). -/
lemma computeMetrics_value_eq (ps : List Product) :
    (computeMetrics ps).totalInventoryValue = toFixed2 (inventoryTotal ps) := by
  rcases ps with _ | ⟨p, t⟩
  · show "0.00" = toFixed2 0
    have h0 : toFixed2 0 = natFixed2 (Int.natAbs 0) := by
      unfold toFixed2
      norm_num
    rw [h0]
    decide
  · rfl

/-- A fold of nonnegative price contributions from a nonnegative
accumulator stays nonnegative. -/
lemma foldl_price_nonneg (t : List Product) : ∀ a : ℚ, 0 ≤ a →
    (∀ p ∈ t, 0 ≤ p.price.getD 0) →
    0 ≤ t.foldl (fun acc p => acc + p.price.getD 0) a := by
  induction t with
  | nil => intro a ha _; simpa using ha
  | cons p t ih =>
      intro a ha h
      simp only [List.foldl_cons]
      exact ih _ (add_nonneg ha (h p (by simp)))
        (fun q hq => h q (by simp [hq]))

/-- With nonnegative prices the inventory total is nonnegative. -/
lemma inventoryTotal_nonneg (ps : List Product)
    (h : ∀ p ∈ ps, ∀ x ∈ p.price, 0 ≤ x) : 0 ≤ inventoryTotal ps := by
  unfold inventoryTotal
  apply foldl_price_nonneg ps 0 le_rfl
  intro p hp
  rcases hx : p.price with _ | x
  · simp
  · rw [Option.getD_some]
    exact h p hp x (by rw [hx]; rfl)

/-- `toFixed2` of a nonnegative value is a string with exactly two digit
characters after the decimal point. -/
lemma toFixed2_decomposition (q : ℚ) (hq : 0 ≤ q) :
    ∃ pre post, toFixed2 q = pre ++ "." ++ post ∧ post.length = 2 ∧
      post.data.all Char.isDigit = true := by
  refine ⟨toString (⌊q * 100 + 1 / 2⌋.natAbs / 100),
    pad2 (⌊q * 100 + 1 / 2⌋.natAbs % 100), ?_, ?_, ?_⟩
  · unfold toFixed2
    rw [if_pos hq]
    rfl
  · exact (pad2_spec _ (Nat.mod_lt _ (by norm_num))).1
  · exact (pad2_spec _ (Nat.mod_lt _ (by norm_num))).2

/-- The exact decimal sum of two 10.005 prices. -/
lemma inventoryTotal_pair :
    inventoryTotal [productP1, productP2] = 2001 / 100 := by
  unfold inventoryTotal productP1 productP2
  simp only [List.foldl_cons, List.foldl_nil, Option.getD_some]
  norm_num

/-- Rendering the exact sum 20.01 gives `"20.01"`. -/
lemma toFixed2_pair : toFixed2 (2001 / 100 : ℚ) = "20.01" := by
  unfold toFixed2
  rw [if_pos (by norm_num : (0 : ℚ) ≤ 2001 / 100),
    show ⌊(2001 / 100 : ℚ) * 100 + 1 / 2⌋ = 2001 by norm_num]
  decide

/-- C8: `computeMetrics` computes `totalInventoryValue` as the exact decimal
sum of the prices rendered with exactly two fraction digits; in particular
two products priced 10.005 yield exactly `"20.01"`, with no binary-float
drift. -/
theorem computeMetrics_totalInventoryValue_spec (ps : List Product)
    (h : ∀ p ∈ ps, ∀ x ∈ p.price, 0 ≤ x) :
    (computeMetrics ps).totalInventoryValue = toFixed2 (inventoryTotal ps) ∧
    (∃ pre post, (computeMetrics ps).totalInventoryValue
        = pre ++ "." ++ post ∧ post.length = 2 ∧
        post.data.all Char.isDigit = true) ∧
    (computeMetrics [productP1, productP2]).totalInventoryValue = "20.01" := by
  refine ⟨computeMetrics_value_eq ps, ?_, ?_⟩
  · rw [computeMetrics_value_eq ps]
    exact toFixed2_decomposition _ (inventoryTotal_nonneg ps h)
  · rw [computeMetrics_value_eq, inventoryTotal_pair, toFixed2_pair]

/-- C8 witness: the nonnegativity hypothesis holds of a one-product
collection with no price, and the theorem applies to it. -/
theorem computeMetrics_totalInventoryValue_spec_witness :
    (∀ p ∈ [productA], ∀ x ∈ p.price, 0 ≤ x) ∧
    ((computeMetrics [productA]).totalInventoryValue
        = toFixed2 (inventoryTotal [productA]) ∧
     (∃ pre post, (computeMetrics [productA]).totalInventoryValue
        = pre ++ "." ++ post ∧ post.length = 2 ∧
        post.data.all Char.isDigit = true) ∧
     (computeMetrics [productP1, productP2]).totalInventoryValue = "20.01") := by
  have hp : ∀ p ∈ [productA], ∀ x ∈ p.price, 0 ≤ x := by
    intro p hp x hx
    simp only [List.mem_singleton] at hp
    subst hp
    simp [productA] at hx
  exact ⟨hp, computeMetrics_totalInventoryValue_spec [productA] hp⟩

/-! ### C10 -/

/-- Folding `acc + (price || 0)` equals the accumulator plus the sum of the
present prices: absent prices contribute exactly 0. -/
lemma foldl_price_eq_sum (t : List Product) : ∀ a : ℚ,
    t.foldl (fun acc p => acc + p.price.getD 0) a
      = a + (t.filterMap (fun p => p.price)).sum := by
  induction t with
  | nil => intro a; simp
  | cons p t ih =>
      intro a
      rcases hx : p.price with _ | x
      · simp only [List.foldl_cons, List.filterMap_cons, hx,
          Option.getD_none, add_zero]
        exact ih a
      · simp only [List.foldl_cons, List.filterMap_cons, hx,
          Option.getD_some, List.sum_cons]
        rw [ih (a + x)]
        ring

/-- The inventory total is the sum of the present prices. -/
lemma inventoryTotal_eq_sum_present (ps : List Product) :
    inventoryTotal ps = (ps.filterMap (fun p => p.price)).sum := by
  unfold inventoryTotal
  rw [foldl_price_eq_sum, zero_add]

/-- C10: `computeMetrics` never fails on a product with an absent price:
such a product contributes exactly 0 (the fold is total over `Option`, the
`price || 0` coercion), and the rendered total is the exact decimal sum of
the present prices alone. -/
theorem computeMetrics_missing_price_contributes_zero (ps : List Product)
    (h : ps ≠ []) :
    inventoryTotal ps = (ps.filterMap (fun p => p.price)).sum ∧
    (computeMetrics ps).totalInventoryValue
      = toFixed2 ((ps.filterMap (fun p => p.price)).sum) := by
  refine ⟨inventoryTotal_eq_sum_present ps, ?_⟩
  rw [computeMetrics_value_eq ps, inventoryTotal_eq_sum_present ps]

/-- C10 witness: a collection holding a priceless product and a 10.005
product is nonempty and the theorem applies to it. -/
theorem computeMetrics_missing_price_contributes_zero_witness :
    ([productA, productP1] ≠ ([] : List Product)) ∧
    (inventoryTotal [productA, productP1]
        = ([productA, productP1].filterMap (fun p => p.price)).sum ∧
     (computeMetrics [productA, productP1]).totalInventoryValue
        = toFixed2 (([productA, productP1].filterMap (fun p => p.price)).sum)) :=
  ⟨by decide,
   computeMetrics_missing_price_contributes_zero [productA, productP1]
     (by decide)⟩

/-! ### C9 -/

/-- The maximum count appearing in a list of category entries. -/
def maxCount : List (String × Nat) → Nat
  | [] => 0
  | e :: t => max e.2 (maxCount t)

/-- Every entry's count is bounded by `maxCount`. -/
lemma le_maxCount_of_mem {es : List (String × Nat)} {e : String × Nat}
    (h : e ∈ es) : e.2 ≤ maxCount es := by
  induction es with
  | nil => cases h
  | cons f t ih =>
      rcases List.mem_cons.mp h with h | h
      · subst h
        exact le_max_left _ _
      · exact le_trans (ih h) (le_max_right _ _)

/-- The strict-greater fold never leaves an accumulator that already
dominates the list. -/
lemma foldl_pickGreater_of_ge (t : List (String × Nat)) :
    ∀ a : String × Nat, (∀ e ∈ t, e.2 ≤ a.2) →
    t.foldl pickGreater a = a := by
  induction t with
  | nil => intro a _; rfl
  | cons e t ih =>
      intro a h
      have he : e.2 ≤ a.2 := h e (by simp)
      rw [List.foldl_cons,
        show pickGreater a e = a from by unfold pickGreater; rw [if_neg (by omega)]]
      exact ih a (fun x hx => h x (by simp [hx]))

/-- The strict-greater fold from an accumulator below the maximum lands on
the first entry attaining the maximum count. -/
lemma foldl_pickGreater_find (t : List (String × Nat)) :
    ∀ a : String × Nat, a.2 < maxCount t →
    t.find? (fun e => e.2 == maxCount t) = some (t.foldl pickGreater a) := by
  induction t with
  | nil =>
      intro a h
      simp [maxCount] at h
  | cons f t ih =>
      intro a h
      by_cases hft : maxCount t ≤ f.2
      · have hmax : maxCount (f :: t) = f.2 := max_eq_left hft
        have ha : a.2 < f.2 := by rw [hmax] at h; exact h
        rw [hmax, List.find?_cons_of_pos _ (by simp), List.foldl_cons,
          show pickGreater a f = f from by unfold pickGreater; rw [if_pos (by omega)],
          foldl_pickGreater_of_ge t f
            (fun e he => le_trans (le_maxCount_of_mem he) hft)]
      · push_neg at hft
        have hmax : maxCount (f :: t) = maxCount t := max_eq_right (le_of_lt hft)
        rw [hmax] at h ⊢
        rw [List.find?_cons_of_neg _ (by simp; omega), List.foldl_cons]
        apply ih
        unfold pickGreater
        by_cases hfa : f.2 > a.2
        · rw [if_pos hfa]
          exact hft
        · rw [if_neg hfa]
          exact h

/-- `bumpCategory` never produces the empty entry list. -/
lemma bumpCategory_ne_nil (acc : List (String × Nat)) (n : String) :
    bumpCategory acc n ≠ [] := by
  unfold bumpCategory
  split
  case isTrue h =>
    intro hmap
    rw [List.map_eq_nil_iff] at hmap
    subst hmap
    simp at h
  case isFalse h =>
    simp

/-- The category fold preserves nonemptiness of the accumulator. -/
lemma foldl_bump_ne_nil (t : List Product) :
    ∀ acc : List (String × Nat), acc ≠ [] →
    t.foldl (fun acc p => bumpCategory acc (categoryName p)) acc ≠ [] := by
  induction t with
  | nil => intro acc h; exact h
  | cons p t ih =>
      intro acc _
      rw [List.foldl_cons]
      exact ih _ (bumpCategory_ne_nil acc (categoryName p))

/-- On a nonempty collection the category count has at least one entry. -/
lemma categoryCount_ne_nil (p : Product) (t : List Product) :
    categoryCount (p :: t) ≠ [] := by
  unfold categoryCount
  rw [List.foldl_cons]
  exact foldl_bump_ne_nil t _ (bumpCategory_ne_nil [] (categoryName p))

/-- `bumpCategory` keeps every count at least 1. -/
lemma bumpCategory_counts (acc : List (String × Nat)) (n : String)
    (h : ∀ e ∈ acc, 1 ≤ e.2) : ∀ e ∈ bumpCategory acc n, 1 ≤ e.2 := by
  unfold bumpCategory
  split
  · intro e he
    rw [List.mem_map] at he
    obtain ⟨f, hf, hfe⟩ := he
    subst hfe
    split
    · simp
    · exact h f hf
  · intro e he
    rcases List.mem_append.mp he with he | he
    · exact h e he
    · rw [List.mem_singleton] at he
      subst he
      exact le_refl 1

/-- The category fold keeps every count at least 1. -/
lemma foldl_bump_counts (t : List Product) :
    ∀ acc : List (String × Nat), (∀ e ∈ acc, 1 ≤ e.2) →
    ∀ e ∈ t.foldl (fun acc p => bumpCategory acc (categoryName p)) acc,
      1 ≤ e.2 := by
  induction t with
  | nil => intro acc h; exact h
  | cons p t ih =>
      intro acc h
      rw [List.foldl_cons]
      exact ih _ (bumpCategory_counts acc (categoryName p) h)

/-- Every entry of `categoryCount` counts at least one product. -/
lemma categoryCount_counts (ps : List Product) :
    ∀ e ∈ categoryCount ps, 1 ≤ e.2 := by
  unfold categoryCount
  exact foldl_bump_counts ps [] (by intro e he; cases he)

/-- Inserting by key is a permutation of consing. -/
lemma insertByKey_perm (e : String × Nat) (l : List (String × Nat)) :
    (insertByKey e l).Perm (e :: l) := by
  induction l with
  | nil => exact List.Perm.refl _
  | cons f t ih =>
      unfold insertByKey
      split
      · exact List.Perm.refl _
      · exact (ih.cons f).trans (List.Perm.swap e f t)

/-- Sorting by key value is a permutation. -/
lemma sortByIndex_perm (l : List (String × Nat)) :
    (sortByIndex l).Perm l := by
  induction l with
  | nil => exact List.Perm.refl _
  | cons e t ih =>
      exact (insertByKey_perm e (sortByIndex t)).trans (ih.cons e)

/-- `Object.entries` enumeration is a permutation of the property bag. -/
lemma jsEntries_perm (l : List (String × Nat)) : (jsEntries l).Perm l := by
  unfold jsEntries
  exact ((sortByIndex_perm _).append (List.Perm.refl _)).trans
    (List.filter_append_perm (fun e => isArrayIndex e.1) l)

/-- A one-category product used by the tie-break instances. -/
def catProduct (i : Int) (c : String) : Product :=
  { id := i, title := "t", price := none, creationAt := 0,
    category := some ⟨i, c⟩ }

/-- C9 (counterexample): with categories encountered in order "Apple",
"Apple", "5", "5" (a tie at two products each), the first category reaching
the maximum in the collection's encounter order is "Apple", but
`Object.entries` enumerates the array-index-like key "5" first, so the
strict-greater reduce selects `("5", 2)`: the first-seen category does not
win. -/
theorem computeMetrics_topCategory_numeric_key_cex :
    (categoryCount
        [catProduct 1 "Apple", catProduct 2 "Apple",
         catProduct 3 "5", catProduct 4 "5"]).find?
      (fun e => e.2 == maxCount (categoryCount
        [catProduct 1 "Apple", catProduct 2 "Apple",
         catProduct 3 "5", catProduct 4 "5"]))
      = some ("Apple", 2) ∧
    (computeMetrics
        [catProduct 1 "Apple", catProduct 2 "Apple",
         catProduct 3 "5", catProduct 4 "5"]).topCategory = ("5", 2) ∧
    (("5", 2) : String × Nat) ≠ ("Apple", 2) :=
  ⟨by decide, by decide, by decide⟩

/-- C9 (amended): on a nonempty collection the selected `topCategory` is
the first entry of the category counts in `Object.entries` enumeration
order (array-index-like names in ascending numeric order first, then the
remaining names in first-occurrence encounter order) whose count attains
the maximum: on a tie the earliest-enumerated category wins, with no other
resolution by name. -/
theorem computeMetrics_topCategory_first_enum_max (ps : List Product)
    (h : ps ≠ []) :
    jsEntries (categoryCount ps) ≠ [] ∧
    (jsEntries (categoryCount ps)).find?
        (fun e => e.2 == maxCount (jsEntries (categoryCount ps)))
      = some ((computeMetrics ps).topCategory) := by
  rcases ps with _ | ⟨p, t⟩
  · exact absurd rfl h
  · have hperm := jsEntries_perm (categoryCount (p :: t))
    have hnn : jsEntries (categoryCount (p :: t)) ≠ [] := by
      intro hnil
      rw [hnil] at hperm
      exact categoryCount_ne_nil p t hperm.symm.eq_nil
    refine ⟨hnn, ?_⟩
    have htc : (computeMetrics (p :: t)).topCategory
        = topCategoryOf (jsEntries (categoryCount (p :: t))) := rfl
    rw [htc]
    unfold topCategoryOf
    apply foldl_pickGreater_find
    rcases hcc : jsEntries (categoryCount (p :: t)) with _ | ⟨f, es⟩
    · exact absurd hcc hnn
    · have hf1 : f ∈ jsEntries (categoryCount (p :: t)) := by
        rw [hcc]
        exact List.mem_cons_self f es
      have hf : 1 ≤ f.2 :=
        categoryCount_counts (p :: t) f (hperm.mem_iff.mp hf1)
      show (0 : Nat) < maxCount (f :: es)
      exact lt_of_lt_of_le hf (le_maxCount_of_mem (List.mem_cons_self f es))

/-- C9 witness: with non-array-index categories encountered in order A, A,
B, B (a tie at two products each), enumeration keeps encounter order and
the first-seen category A wins as `topCategory`. -/
theorem computeMetrics_topCategory_first_enum_max_witness :
    ([catProduct 1 "A", catProduct 2 "A", catProduct 3 "B", catProduct 4 "B"]
        ≠ ([] : List Product)) ∧
    (jsEntries (categoryCount
        [catProduct 1 "A", catProduct 2 "A", catProduct 3 "B", catProduct 4 "B"])
        ≠ [] ∧
     (jsEntries (categoryCount
        [catProduct 1 "A", catProduct 2 "A", catProduct 3 "B", catProduct 4 "B"])).find?
          (fun e => e.2 == maxCount (jsEntries (categoryCount
            [catProduct 1 "A", catProduct 2 "A", catProduct 3 "B", catProduct 4 "B"])))
        = some ((computeMetrics
            [catProduct 1 "A", catProduct 2 "A", catProduct 3 "B", catProduct 4 "B"]).topCategory)) ∧
    (computeMetrics
        [catProduct 1 "A", catProduct 2 "A", catProduct 3 "B", catProduct 4 "B"]).topCategory
      = ("A", 2) :=
  ⟨by decide,
   computeMetrics_topCategory_first_enum_max
     [catProduct 1 "A", catProduct 2 "A", catProduct 3 "B", catProduct 4 "B"]
     (by decide),
   by decide⟩

end Dashboard
